import Mathlib

/-!
Shallow embedding of `aws-transcode` (`src/index.js`).

The library wraps AWS Elastic Transcoder: it filters outputs that already
exist in a configured S3 bucket, submits a single transcoder job for the
remaining outputs, then polls the job until a terminal status, translating
statuses into a result, an error or a progress event.

External collaborators (S3 `headObject`, ElasticTranscoder `createJob` /
`readJob`) are modelled as oracles passed in explicitly: `headObject` as a
function from bucket and key to a `HeadResult`, and the poll loop as a list
of successive `readJob` responses.  Promise resolution of `transcode` is
modelled by the `TranscodeTrace` record: which job parameters were submitted
(if any), the sequence of `onProgress` invocations, and the final result.
-/

namespace AwsTranscode

/-- An output descriptor as passed to `transcode`:
`{ key, presetId, thumbnailPattern }` where `thumbnailPattern` is optional
(`some ""` models an explicitly provided empty string, which is falsy in JS). -/
structure Output where
  key : String
  presetId : String
  thumbnailPattern : Option String
deriving DecidableEq, Repr

/-- Result of an `s3.headObject` call: success, a not-found rejection, or any
other error rejection.  The source's `try { ... } catch (err) { return false }`
treats the last two identically. -/
inductive HeadResult where
  | ok
  | notFound
  | error
deriving DecidableEq, Repr

/-- The configuration object (`config` in `src/index.js`): `onProgress` is
modelled by whether a callback function is configured
(`typeof onProgress === 'function'`). -/
structure Config where
  checkExistsInBucket : Option String
  onProgress : Bool
  pipelineId : String
  pollInterval : Nat := 2000
  region : String := "us-east-1"
deriving DecidableEq, Repr

/-- `AwsTranscoder.checkExists` (src/index.js lines 63-72): returns `false`
when no `checkExistsInBucket` is configured; otherwise `true` exactly when
`headObject` succeeds, and `false` on any rejection (not-found or any other
error) via the `try`/`catch`. -/
def checkExists (cfg : Config) (head : String → String → HeadResult) (o : Output) : Bool :=
  match cfg.checkExistsInBucket with
  | none => false
  | some bucket =>
    match head bucket o.key with
    | HeadResult.ok => true
    | HeadResult.notFound => false
    | HeadResult.error => false

/-- `AwsTranscoder.maybeRemoveExistingOutputs` (src/index.js lines 51-55): a
left-to-right reduce over `outputs` that appends an output to the accumulator
exactly when its existence check comes back false. -/
def maybeRemoveExistingOutputs (cfg : Config) (head : String → String → HeadResult)
    (outputs : List Output) : List Output :=
  outputs.foldl (fun acc o => if checkExists cfg head o then acc else acc ++ [o]) []

/-- The `input` argument of the top-level `transcode`: either a bare key
string or an object `{ key, start?, duration? }` (times in seconds). -/
inductive TranscodeInput where
  | str (key : String)
  | obj (key : String) (start : Option ℚ) (duration : Option ℚ)
deriving DecidableEq, Repr

/-- The key carried by a `TranscodeInput` in either form. -/
def keyOf : TranscodeInput → String
  | TranscodeInput.str k => k
  | TranscodeInput.obj k _ _ => k

/-- A normalized input: key plus optional start and duration in seconds. -/
structure NormalizedInput where
  key : String
  start : Option ℚ
  duration : Option ℚ
deriving DecidableEq, Repr

/-- Modelled from the spec: the input-normalization step of the job lifecycle
controller ("Normalize `input`: if given as a bare key string, treat as
`{ key }` with no trimming").  The code implementing this step is not in
`src/` (only its tests and the README document it), so it is taken from the
spec's words: a bare string becomes `{ key }` with no start and no duration,
and an object form passes through unchanged. -/
def normalizeInput : TranscodeInput → NormalizedInput
  | TranscodeInput.str k => { key := k, start := none, duration := none }
  | TranscodeInput.obj k s d => { key := k, start := s, duration := d }

/-- Zero-pads a fractional part to exactly three digits. -/
def pad3 (f : Nat) : String :=
  if f < 10 then "00" ++ toString f
  else if f < 100 then "0" ++ toString f
  else toString f

/-- Modelled from the spec: fixed-point formatting of a non-negative number
of seconds with exactly 3 fractional digits and rounding to the nearest
thousandth (the spec's examples: `5.123999 ↦ "5.124"`, `12.987666 ↦
"12.988"`).  For `q ≥ 0`, `⌊1000q + 1/2⌋ = (2000·num + den) / (2·den)`
computed on the numerator and denominator. -/
def fmt3 (q : ℚ) : String :=
  let n : Nat := ((2000 * q.num + (q.den : Int)).toNat) / (2 * q.den)
  toString (n / 1000) ++ "." ++ pad3 (n % 1000)

/-- The `TimeSpan` sub-structure of a job-submission request. -/
structure TimeSpanParam where
  StartTime : Option String
  Duration : Option String
deriving DecidableEq, Repr

/-- The `Input` field of a job-submission request. -/
structure InputParam where
  Key : String
  TimeSpan : Option TimeSpanParam
deriving DecidableEq, Repr

/-- One entry of the `Outputs` field of a job-submission request. -/
structure OutputParam where
  Key : String
  PresetId : String
  ThumbnailPattern : Option String
deriving DecidableEq, Repr

/-- The parameters passed to `elastictranscoder.createJob`. -/
structure JobParams where
  Input : InputParam
  PipelineId : String
  Outputs : List OutputParam
deriving DecidableEq, Repr

/-- Modelled from the spec: the time-span sub-structure of the submission
request ("only if `start > 0` or `duration` is provided, a time-span
sub-structure.  Within the time span: include `StartTime` only when
`start > 0` ..., include `Duration` only when a duration value is provided
...  Omit the time-span structure entirely when neither condition holds").
The code implementing this is not in `src/` (only its tests exercise it);
an absent `start` defaults to 0. -/
def timeSpanOf (inp : NormalizedInput) : Option TimeSpanParam :=
  let s : ℚ := inp.start.getD 0
  if 0 < s ∨ inp.duration.isSome then
    some { StartTime := if 0 < s then some (fmt3 s) else none,
           Duration := inp.duration.map fmt3 }
  else none

/-- `AwsTranscoder.createTranscoderJob` (src/index.js lines 84-98): builds the
`createJob` parameters.  The `Key`/`PresetId`/`ThumbnailPattern` mapping over
outputs is from the source (`...(thumbnailPattern && { ThumbnailPattern:
thumbnailPattern })` spreads nothing when the pattern is absent or the empty
string, both falsy); the `TimeSpan` part is modelled from the spec via
`timeSpanOf` since that code is not in `src/`. -/
def createTranscoderJob (cfg : Config) (inp : NormalizedInput) (outputs : List Output) :
    JobParams :=
  { Input := { Key := inp.key, TimeSpan := timeSpanOf inp },
    PipelineId := cfg.pipelineId,
    Outputs := outputs.map fun o =>
      { Key := o.key,
        PresetId := o.presetId,
        ThumbnailPattern :=
          match o.thumbnailPattern with
          | some t => if t = "" then none else some t
          | none => none } }

/-- The `Output` field of a `readJob` response (both sub-fields optional). -/
structure JobOutput where
  DurationMillis : Option Nat
  StatusDetail : Option String
deriving DecidableEq, Repr

/-- One `readJob` response: the job's `Status` string and optional `Output`.
In the source a missing `Output` defaults to `{}`. -/
structure JobRead where
  Status : String
  Output : Option JobOutput
deriving DecidableEq, Repr

/-- The `DurationMillis` extracted from a job read
(`const { Output: output = {} } = job; const { DurationMillis: duration } = output`). -/
def durationOf (r : JobRead) : Option Nat :=
  r.Output.bind fun o => o.DurationMillis

/-- The `StatusDetail` extracted from a job read. -/
def statusDetailOf (r : JobRead) : Option String :=
  r.Output.bind fun o => o.StatusDetail

/-- A JavaScript `Error` as thrown by the source: a message, and an optional
`code` property (set only on the cancellation error). -/
structure JsError where
  message : String
  code : Option String
deriving DecidableEq, Repr

/-- Message of the Error-status failure (src/index.js line 133):
`` `Transcode failed for "${key}"${statusDetails ? `\n${statusDetails}` : ''}` ``;
an absent or empty (falsy) detail string appends nothing. -/
def failedMessage (key : String) (sd : Option String) : String :=
  "Transcode failed for \"" ++ key ++ "\"" ++
    (match sd with
     | some s => if s = "" then "" else "\n" ++ s
     | none => "")

/-- Message of the Canceled-status failure (src/index.js line 135). -/
def cancelledMessage (key : String) : String :=
  "Transcode cancelled for \"" ++ key ++ "\"."

/-- Outcome of one `checkJobStatus` call: a thrown error, a returned duration
(the `Complete` case), or `false` with a possible progress event (the
`default` case of the switch). -/
inductive CheckResult where
  | failed (e : JsError)
  | done (d : Option Nat)
  | progressing (status : String)
deriving DecidableEq, Repr

/-- `AwsTranscoder.checkJobStatus` (src/index.js lines 125-146): the switch on
the job's status.  `Error` throws a message-only error, `Canceled` throws an
error with `code = 'CANCELLED'`, `Complete` returns the (possibly undefined)
duration, and any other status is non-terminal. -/
def checkJobStatus (key : String) (r : JobRead) : CheckResult :=
  if r.Status = "Error" then
    CheckResult.failed { message := failedMessage key (statusDetailOf r), code := none }
  else if r.Status = "Canceled" then
    CheckResult.failed { message := cancelledMessage key, code := some "CANCELLED" }
  else if r.Status = "Complete" then
    CheckResult.done (durationOf r)
  else
    CheckResult.progressing r.Status

/-- Whether a status string is terminal for the poll loop. -/
def isTerminal (r : JobRead) : Bool :=
  r.Status = "Complete" || r.Status = "Error" || r.Status = "Canceled"

/-- Outcome of the poll loop `waitForTranscoderJob`: resolved with a duration,
rejected with an error, or still pending when the supplied read list is
exhausted without a terminal status (the source loops forever in that case). -/
inductive WaitOutcome where
  | completed (d : Option Nat)
  | failed (e : JsError)
  | pending
deriving DecidableEq, Repr

/-- `AwsTranscoder.waitForTranscoderJob` (src/index.js lines 108-115) run
against a list of successive `readJob` responses: returns the list of
statuses passed to `onProgress` (empty when no callback is configured) and
the outcome. -/
def waitForTranscoderJob (onProg : Bool) (key : String) :
    List JobRead → List String × WaitOutcome
  | [] => ([], WaitOutcome.pending)
  | r :: rs =>
    match checkJobStatus key r with
    | CheckResult.failed e => ([], WaitOutcome.failed e)
    | CheckResult.done d => ([], WaitOutcome.completed d)
    | CheckResult.progressing s =>
      let w := waitForTranscoderJob onProg key rs
      (if onProg then s :: w.1 else w.1, w.2)

/-- Result of the top-level `transcode` promise: resolved `false` (nothing to
transcode), resolved with the possibly-undefined duration, rejected with an
error, or pending (poll reads exhausted). -/
inductive TranscodeResult where
  | returnedFalse
  | completed (d : Option Nat)
  | failed (e : JsError)
  | pending
deriving DecidableEq, Repr

/-- Lifts a poll-loop outcome to a `transcode` result. -/
def outcomeResult : WaitOutcome → TranscodeResult
  | WaitOutcome.completed d => TranscodeResult.completed d
  | WaitOutcome.failed e => TranscodeResult.failed e
  | WaitOutcome.pending => TranscodeResult.pending

/-- Observable trace of one `transcode` call: the parameters passed to
`createJob` (`none` when no job was submitted), the sequence of `onProgress`
invocations, and the final result. -/
structure TranscodeTrace where
  submitted : Option JobParams
  progressEvents : List String
  result : TranscodeResult
deriving DecidableEq, Repr

/-- `AwsTranscoder.transcode` (src/index.js lines 38-43) composed with the
module-level `transcode` wrapper (lines 149-152): filter outputs, short-circuit
to `false` when nothing is left (`if (!filteredOutputs.length) return false`),
otherwise create the job and poll it.  Input normalization is modelled from
the spec via `normalizeInput`. -/
def transcode (cfg : Config) (head : String → String → HeadResult)
    (input : TranscodeInput) (outputs : List Output) (reads : List JobRead) :
    TranscodeTrace :=
  let filteredOutputs := maybeRemoveExistingOutputs cfg head outputs
  if filteredOutputs = [] then
    { submitted := none, progressEvents := [], result := TranscodeResult.returnedFalse }
  else
    let inp := normalizeInput input
    let params := createTranscoderJob cfg inp filteredOutputs
    let w := waitForTranscoderJob cfg.onProgress inp.key reads
    { submitted := some params, progressEvents := w.1, result := outcomeResult w.2 }

/-! Sample inputs used by witnesses. -/

/-- Sample head-object oracle: one key exists, one is not found, any other
key makes the query itself error. -/
def sampleHead : String → String → HeadResult :=
  fun _ k =>
    if k = "exists.mp4" then HeadResult.ok
    else if k = "missing.mp4" then HeadResult.notFound
    else HeadResult.error

/-- Sample configuration with an existence-check bucket and a progress callback. -/
def sampleConfig : Config :=
  { checkExistsInBucket := some "BUCKET", onProgress := true,
    pipelineId := "PIPELINEID", pollInterval := 0, region := "REGIONID" }

/-- Sample output whose existence check succeeds under `sampleHead`. -/
def outExists : Output := { key := "exists.mp4", presetId := "PRESET1", thumbnailPattern := none }

/-- Sample output whose existence check is a not-found under `sampleHead`. -/
def outMissing : Output := { key := "missing.mp4", presetId := "PRESET2", thumbnailPattern := none }

/-- Sample output whose existence check errors under `sampleHead`. -/
def outQueryError : Output :=
  { key := "query-error.mp4", presetId := "PRESET3", thumbnailPattern := none }

/-- Sample non-terminal job read. -/
def readProgressing : JobRead := { Status := "Progressing", Output := none }

/-- Sample Complete job read carrying `DurationMillis = 123`. -/
def readComplete123 : JobRead :=
  { Status := "Complete", Output := some { DurationMillis := some 123, StatusDetail := none } }

/-- Sample Error job read carrying a status detail. -/
def readErrorDetail : JobRead :=
  { Status := "Error", Output := some { DurationMillis := none, StatusDetail := some "ERRORDETAILS" } }

/-- Sample Canceled job read. -/
def readCancelled : JobRead := { Status := "Canceled", Output := none }

/-- Sample Complete job read with no `Output` field at all. -/
def readCompleteNoDuration : JobRead := { Status := "Complete", Output := none }

/-! Helper lemmas. -/

/-- The reduce in `maybeRemoveExistingOutputs` is a filter: appending to the
accumulator exactly when the predicate is false keeps the non-matching
elements in order. -/
theorem foldl_removeExisting (p : Output → Bool) (l : List Output) (init : List Output) :
    l.foldl (fun acc o => if p o then acc else acc ++ [o]) init
      = init ++ l.filter (fun o => ! p o) := by
  induction l generalizing init with
  | nil => simp
  | cons a t ih =>
    by_cases h : p a
    · simp [List.foldl_cons, h, ih, List.filter_cons]
    · simp [List.foldl_cons, h, ih, List.filter_cons]

/-- `checkJobStatus` on an Error-status read throws the code-less failure error. -/
theorem checkJobStatus_of_error (key : String) (r : JobRead) (h : r.Status = "Error") :
    checkJobStatus key r
      = CheckResult.failed { message := failedMessage key (statusDetailOf r), code := none } := by
  simp [checkJobStatus, h]

/-- `checkJobStatus` on a Canceled-status read throws the `CANCELLED`-coded error. -/
theorem checkJobStatus_of_canceled (key : String) (r : JobRead) (h : r.Status = "Canceled") :
    checkJobStatus key r
      = CheckResult.failed { message := cancelledMessage key, code := some "CANCELLED" } := by
  simp [checkJobStatus, h]

/-- `checkJobStatus` on a Complete-status read returns the extracted duration. -/
theorem checkJobStatus_of_complete (key : String) (r : JobRead) (h : r.Status = "Complete") :
    checkJobStatus key r = CheckResult.done (durationOf r) := by
  simp [checkJobStatus, h]

/-- `checkJobStatus` on a non-terminal read reports progress with the status. -/
theorem checkJobStatus_of_nonterminal (key : String) (r : JobRead)
    (h : isTerminal r = false) :
    checkJobStatus key r = CheckResult.progressing r.Status := by
  simp only [isTerminal, Bool.or_eq_false_iff, decide_eq_false_iff_not] at h
  simp [checkJobStatus, h.1.1, h.1.2, h.2]

/-- The poll loop ignores a non-terminal prefix except for emitting one
progress event per read (when a callback is configured). -/
theorem wait_append_nonterminal (onProg : Bool) (key : String) (pre l : List JobRead)
    (hpre : ∀ x ∈ pre, isTerminal x = false) :
    waitForTranscoderJob onProg key (pre ++ l)
      = ((if onProg then pre.map (fun r => r.Status) else [])
            ++ (waitForTranscoderJob onProg key l).1,
         (waitForTranscoderJob onProg key l).2) := by
  induction pre with
  | nil => simp
  | cons a t ih =>
    have ha : isTerminal a = false := hpre a (by simp)
    have ht : ∀ x ∈ t, isTerminal x = false := fun x hx => hpre x (by simp [hx])
    rw [List.cons_append]
    simp only [waitForTranscoderJob, checkJobStatus_of_nonterminal key a ha, ih ht]
    cases onProg <;> simp

/-- The progress-event list of the poll loop: the statuses of the reads
strictly before the first terminal read, or nothing when no callback is
configured. -/
theorem wait_events (onProg : Bool) (key : String) (reads : List JobRead) :
    (waitForTranscoderJob onProg key reads).1
      = if onProg then (reads.takeWhile (fun r => ! isTerminal r)).map (fun r => r.Status)
        else [] := by
  induction reads with
  | nil => cases onProg <;> simp [waitForTranscoderJob]
  | cons r rs ih =>
    cases hterm : isTerminal r with
    | true =>
      have : (r.Status = "Complete" ∨ r.Status = "Error") ∨ r.Status = "Canceled" := by
        simpa [isTerminal] using hterm
      rcases this with (h | h) | h
      · simp [waitForTranscoderJob, checkJobStatus_of_complete key r h,
          List.takeWhile_cons, hterm]
      · simp [waitForTranscoderJob, checkJobStatus_of_error key r h,
          List.takeWhile_cons, hterm]
      · simp [waitForTranscoderJob, checkJobStatus_of_canceled key r h,
          List.takeWhile_cons, hterm]
    | false =>
      simp only [waitForTranscoderJob, checkJobStatus_of_nonterminal key r hterm,
        List.takeWhile_cons, hterm]
      cases onProg <;> simp [ih]

/-- Unfolding of `transcode` when the filtered output list is nonempty. -/
theorem transcode_of_filtered_ne (cfg : Config) (head : String → String → HeadResult)
    (input : TranscodeInput) (outputs : List Output) (reads : List JobRead)
    (h : maybeRemoveExistingOutputs cfg head outputs ≠ []) :
    transcode cfg head input outputs reads
      = { submitted := some (createTranscoderJob cfg (normalizeInput input)
            (maybeRemoveExistingOutputs cfg head outputs)),
          progressEvents :=
            (waitForTranscoderJob cfg.onProgress (normalizeInput input).key reads).1,
          result := outcomeResult
            (waitForTranscoderJob cfg.onProgress (normalizeInput input).key reads).2 } := by
  simp [transcode, h]

/-! Claim theorems. -/

/-- Claim C1: for every outputs list whose existence-filtered result is empty
(in particular when every output already exists in the configured check
bucket), `transcode` resolves to `false` and no job is ever submitted
(`createJob` is never called, so the trace records no submitted parameters). -/
theorem transcode_empty_filter_no_job (cfg : Config) (head : String → String → HeadResult)
    (input : TranscodeInput) (outputs : List Output) (reads : List JobRead)
    (h : maybeRemoveExistingOutputs cfg head outputs = []) :
    transcode cfg head input outputs reads
      = { submitted := none, progressEvents := [], result := TranscodeResult.returnedFalse } := by
  simp [transcode, h]

/-- Witness for C1: with every output existing in the check bucket, the
filtered list is empty, the call returns `false` and nothing is submitted. -/
theorem transcode_empty_filter_no_job_witness :
    maybeRemoveExistingOutputs sampleConfig sampleHead [outExists, outExists] = []
    ∧ transcode sampleConfig sampleHead (TranscodeInput.str "input/test.avi")
        [outExists, outExists] [readProgressing]
      = { submitted := none, progressEvents := [], result := TranscodeResult.returnedFalse } :=
  ⟨by decide,
   transcode_empty_filter_no_job sampleConfig sampleHead (TranscodeInput.str "input/test.avi")
     [outExists, outExists] [readProgressing] (by decide)⟩

/-- Claim C2: the existence filter retains exactly the outputs whose
existence check fails (with a configured bucket, the check succeeds exactly
when `headObject` succeeds — a not-found or any query error is "does not
exist"), drops exactly those whose check succeeds, and the retained outputs
appear in the submitted job's output list in their original relative order. -/
theorem maybeRemoveExistingOutputs_filter (cfg : Config)
    (head : String → String → HeadResult) (outputs : List Output) :
    maybeRemoveExistingOutputs cfg head outputs
        = outputs.filter (fun o => ! checkExists cfg head o)
    ∧ (∀ b o, cfg.checkExistsInBucket = some b →
        (checkExists cfg head o = true ↔ head b o.key = HeadResult.ok))
    ∧ (∀ inp, (createTranscoderJob cfg inp (maybeRemoveExistingOutputs cfg head outputs)).Outputs.map
          (fun p => p.Key)
        = (outputs.filter (fun o => ! checkExists cfg head o)).map (fun o => o.key)) := by
  have hfil : maybeRemoveExistingOutputs cfg head outputs
      = outputs.filter (fun o => ! checkExists cfg head o) := by
    simpa [maybeRemoveExistingOutputs] using
      foldl_removeExisting (checkExists cfg head) outputs []
  refine ⟨hfil, ?_, ?_⟩
  · intro b o hb
    cases hh : head b o.key <;> simp [checkExists, hb, hh]
  · intro inp
    rw [hfil]
    simp [createTranscoderJob, List.map_map, Function.comp]

/-- Witness for C2: under `sampleHead`, the existing output is dropped while
the not-found and query-error outputs are retained in order, and the
check-succeeds iff head-succeeds equivalence holds at the sample bucket. -/
theorem maybeRemoveExistingOutputs_filter_witness :
    maybeRemoveExistingOutputs sampleConfig sampleHead [outMissing, outExists, outQueryError]
        = [outMissing, outExists, outQueryError].filter
            (fun o => ! checkExists sampleConfig sampleHead o)
    ∧ sampleConfig.checkExistsInBucket = some "BUCKET"
    ∧ (checkExists sampleConfig sampleHead outQueryError = true
        ↔ sampleHead "BUCKET" outQueryError.key = HeadResult.ok)
    ∧ maybeRemoveExistingOutputs sampleConfig sampleHead [outMissing, outExists, outQueryError]
        = [outMissing, outQueryError] :=
  ⟨(maybeRemoveExistingOutputs_filter sampleConfig sampleHead
      [outMissing, outExists, outQueryError]).1,
   by decide,
   (maybeRemoveExistingOutputs_filter sampleConfig sampleHead
      [outMissing, outExists, outQueryError]).2.1 "BUCKET" outQueryError (by decide),
   by decide⟩

/-- Sample object-form input with the spec's example start and duration
(5.123999 s and 12.987666 s). -/
def sampleInputObj : TranscodeInput :=
  TranscodeInput.obj "input/test.avi" (some (mkRat 5123999 1000000))
    (some (mkRat 12987666 1000000))

/-- Claim C3: the submitted request contains a `TimeSpan` sub-structure
exactly when `start > 0` or a duration is provided; `StartTime` is present
only when `start > 0` and `Duration` only when a duration is provided, each
formatted with exactly 3 fractional digits (`5.123999 ↦ "5.124"`,
`12.987666 ↦ "12.988"`); when neither condition holds there is no `TimeSpan`
at all. -/
theorem createTranscoderJob_timeSpan (cfg : Config) (inp : NormalizedInput)
    (outs : List Output) :
    ((createTranscoderJob cfg inp outs).Input.TimeSpan.isSome
        ↔ (0 < inp.start.getD 0 ∨ inp.duration.isSome))
    ∧ (∀ t, (createTranscoderJob cfg inp outs).Input.TimeSpan = some t →
        t.StartTime
            = (if 0 < inp.start.getD 0 then some (fmt3 (inp.start.getD 0)) else none)
        ∧ t.Duration = inp.duration.map fmt3)
    ∧ fmt3 (mkRat 5123999 1000000) = "5.124"
    ∧ fmt3 (mkRat 12987666 1000000) = "12.988" := by
  refine ⟨?_, ?_, by decide, by decide⟩
  · simp only [createTranscoderJob, timeSpanOf]
    split <;> simp_all
  · intro t ht
    simp only [createTranscoderJob, timeSpanOf] at ht
    split at ht
    · injection ht with h
      subst h
      exact ⟨rfl, rfl⟩
    · exact absurd ht (by simp)

/-- Witness for C3: with `start = 5.123999` and `duration = 12.987666` the
submitted request carries `TimeSpan = { StartTime := "5.124", Duration :=
"12.988" }` of the stated shape. -/
theorem createTranscoderJob_timeSpan_witness :
    (createTranscoderJob sampleConfig (normalizeInput sampleInputObj) [outMissing]).Input.TimeSpan
        = some { StartTime := some "5.124", Duration := some "12.988" }
    ∧ ((TimeSpanParam.mk (some "5.124") (some "12.988")).StartTime
          = (if 0 < (normalizeInput sampleInputObj).start.getD 0
              then some (fmt3 ((normalizeInput sampleInputObj).start.getD 0)) else none)
        ∧ (TimeSpanParam.mk (some "5.124") (some "12.988")).Duration
          = (normalizeInput sampleInputObj).duration.map fmt3) :=
  ⟨by decide,
   (createTranscoderJob_timeSpan sampleConfig (normalizeInput sampleInputObj) [outMissing]).2.1
     ⟨some "5.124", some "12.988"⟩ (by decide)⟩

/-- Claim C4: the input is normalized at the boundary (a bare key string
becomes `{ key }` with no trimming), so when a job is submitted its
`Input.Key` equals the input's key string in both forms. -/
theorem transcode_input_key (cfg : Config) (head : String → String → HeadResult)
    (input : TranscodeInput) (outputs : List Output) (reads : List JobRead)
    (h : maybeRemoveExistingOutputs cfg head outputs ≠ []) :
    (∃ p, (transcode cfg head input outputs reads).submitted = some p
        ∧ p.Input.Key = keyOf input)
    ∧ (∀ k, normalizeInput (TranscodeInput.str k)
        = { key := k, start := none, duration := none }) := by
  refine ⟨⟨createTranscoderJob cfg (normalizeInput input)
      (maybeRemoveExistingOutputs cfg head outputs), ?_, ?_⟩, fun k => rfl⟩
  · rw [transcode_of_filtered_ne cfg head input outputs reads h]
  · cases input <;> rfl

/-- Witness for C4: both the bare-string form and the object form submit a
request whose `Input.Key` is the input's key. -/
theorem transcode_input_key_witness :
    (maybeRemoveExistingOutputs sampleConfig sampleHead [outMissing] ≠ [])
    ∧ (∃ p, (transcode sampleConfig sampleHead (TranscodeInput.str "input/test.avi")
          [outMissing] []).submitted = some p
        ∧ p.Input.Key = keyOf (TranscodeInput.str "input/test.avi"))
    ∧ (∃ p, (transcode sampleConfig sampleHead sampleInputObj [outMissing] []).submitted = some p
        ∧ p.Input.Key = keyOf sampleInputObj) :=
  ⟨by decide,
   (transcode_input_key sampleConfig sampleHead (TranscodeInput.str "input/test.avi")
      [outMissing] [] (by decide)).1,
   (transcode_input_key sampleConfig sampleHead sampleInputObj [outMissing] [] (by decide)).1⟩

/-- Counterexample for C9: an output descriptor that provides an explicitly
empty thumbnail pattern (`thumbnailPattern: ''`, falsy in JS) is submitted
without a `ThumbnailPattern` field, so "included if and only if provided"
fails at this input. -/
theorem createTranscoderJob_thumbnail_counterexample :
    ¬ ((createTranscoderJob sampleConfig (normalizeInput (TranscodeInput.str "in.avi"))
          [{ key := "out.mp4", presetId := "P", thumbnailPattern := some "" }]).Outputs.map
            (fun p => p.ThumbnailPattern.isSome)
        = ([{ key := "out.mp4", presetId := "P", thumbnailPattern := some "" }] : List Output).map
            (fun o => o.thumbnailPattern.isSome)) := by decide

/-- Claim C9 (amended): for every output descriptor in the filtered list, the
`ThumbnailPattern` field is included in the corresponding submitted output
descriptor if and only if a thumbnail pattern was provided and is non-empty
(JS truthiness drops an empty string), in which case it carries the provided
value. -/
theorem createTranscoderJob_thumbnailPattern (cfg : Config) (inp : NormalizedInput)
    (outs : List Output) :
    (createTranscoderJob cfg inp outs).Outputs.map (fun p => p.ThumbnailPattern)
      = outs.map (fun o =>
          if o.thumbnailPattern = none ∨ o.thumbnailPattern = some "" then none
          else o.thumbnailPattern) := by
  simp only [createTranscoderJob, List.map_map]
  refine List.map_congr_left ?_
  intro o _
  cases hto : o.thumbnailPattern with
  | none => simp [Function.comp, hto]
  | some t =>
    by_cases ht : t = "" <;> simp [Function.comp, hto, ht]

/-- A non-terminal prefix of poll reads does not affect the loop's outcome. -/
theorem wait_outcome_first_terminal (onProg : Bool) (key : String) (pre : List JobRead)
    (r : JobRead) (rest : List JobRead) (hpre : ∀ x ∈ pre, isTerminal x = false) :
    (waitForTranscoderJob onProg key (pre ++ r :: rest)).2
      = (waitForTranscoderJob onProg key (r :: rest)).2 := by
  rw [wait_append_nonterminal onProg key pre (r :: rest) hpre]

/-- String concatenation is associative (on the underlying character data). -/
theorem string_append_assoc (a b c : String) : a ++ b ++ c = a ++ (b ++ c) := by
  apply String.ext
  simp [String.data_append, List.append_assoc]

/-- Claim C5: when the first terminal status observed by the poll loop is
`Complete` and that read carries `DurationMillis = d`, `transcode` resolves
with `d`, the success return value of the top-level call. -/
theorem transcode_complete_duration (cfg : Config) (head : String → String → HeadResult)
    (input : TranscodeInput) (outputs : List Output) (pre : List JobRead) (r : JobRead)
    (rest : List JobRead) (d : Nat)
    (hfil : maybeRemoveExistingOutputs cfg head outputs ≠ [])
    (hpre : ∀ x ∈ pre, isTerminal x = false)
    (hr : r.Status = "Complete")
    (hd : durationOf r = some d) :
    (transcode cfg head input outputs (pre ++ r :: rest)).result
      = TranscodeResult.completed (some d) := by
  rw [transcode_of_filtered_ne cfg head input outputs _ hfil]
  simp only
  rw [wait_outcome_first_terminal _ _ pre r rest hpre]
  simp [waitForTranscoderJob, checkJobStatus_of_complete _ r hr, hd, outcomeResult]

/-- Witness for C5: one Progressing read followed by a Complete read with
`DurationMillis = 123` resolves the call with `123`. -/
theorem transcode_complete_duration_witness :
    maybeRemoveExistingOutputs sampleConfig sampleHead [outMissing] ≠ []
    ∧ (∀ x ∈ [readProgressing], isTerminal x = false)
    ∧ readComplete123.Status = "Complete"
    ∧ durationOf readComplete123 = some 123
    ∧ (transcode sampleConfig sampleHead (TranscodeInput.str "input/test.avi") [outMissing]
        ([readProgressing] ++ readComplete123 :: [])).result
      = TranscodeResult.completed (some 123) :=
  ⟨by decide, by decide, by decide, by decide,
   transcode_complete_duration sampleConfig sampleHead (TranscodeInput.str "input/test.avi")
     [outMissing] [readProgressing] readComplete123 [] 123
     (by decide) (by decide) (by decide) (by decide)⟩

/-- Claim C6: when the first terminal status observed is `Error`, `transcode`
rejects with an error whose message contains the original input key and,
when the read carries a `StatusDetail` string, also contains that detail
text; the error carries no code and the outcome ignores any later reads
(fatal, no retry). -/
theorem transcode_error_rejects (cfg : Config) (head : String → String → HeadResult)
    (input : TranscodeInput) (outputs : List Output) (pre : List JobRead) (r : JobRead)
    (rest : List JobRead)
    (hfil : maybeRemoveExistingOutputs cfg head outputs ≠ [])
    (hpre : ∀ x ∈ pre, isTerminal x = false)
    (hr : r.Status = "Error") :
    ∃ e, (transcode cfg head input outputs (pre ++ r :: rest)).result
          = TranscodeResult.failed e
      ∧ (∃ a b, e.message = a ++ keyOf input ++ b)
      ∧ (∀ dtl, statusDetailOf r = some dtl → ∃ a b, e.message = a ++ dtl ++ b)
      ∧ e.code = none := by
  refine ⟨{ message := failedMessage (keyOf input) (statusDetailOf r), code := none },
    ?_, ?_, ?_, rfl⟩
  · rw [transcode_of_filtered_ne cfg head input outputs _ hfil]
    simp only
    rw [wait_outcome_first_terminal _ _ pre r rest hpre]
    have hkey : (normalizeInput input).key = keyOf input := by cases input <;> rfl
    simp [waitForTranscoderJob, checkJobStatus_of_error _ r hr, outcomeResult, hkey]
  · refine ⟨"Transcode failed for \"", "\"" ++
      (match statusDetailOf r with
       | some s => if s = "" then "" else "\n" ++ s
       | none => ""), ?_⟩
    simp [failedMessage, string_append_assoc]
  · intro dtl hdtl
    by_cases hd : dtl = ""
    · exact ⟨failedMessage (keyOf input) (statusDetailOf r), "", by simp [hd]⟩
    · refine ⟨"Transcode failed for \"" ++ keyOf input ++ "\"" ++ "\n", "", ?_⟩
      have hq : ("\"" : String) ++ ("\n" ++ dtl) = "\"\n" ++ dtl := by
        rw [← string_append_assoc]
        have hlit : ("\"" : String) ++ "\n" = "\"\n" := by decide
        rw [hlit]
      simp [failedMessage, hdtl, hd, string_append_assoc, hq]

/-- Witness for C6: an Error read with `StatusDetail = 'ERRORDETAILS'` after
one Progressing read rejects with a message containing the key and the
detail text, with no error code. -/
theorem transcode_error_rejects_witness :
    maybeRemoveExistingOutputs sampleConfig sampleHead [outMissing] ≠ []
    ∧ (∀ x ∈ [readProgressing], isTerminal x = false)
    ∧ readErrorDetail.Status = "Error"
    ∧ (∃ e, (transcode sampleConfig sampleHead (TranscodeInput.str "input/test.avi")
            [outMissing] ([readProgressing] ++ readErrorDetail :: [])).result
          = TranscodeResult.failed e
        ∧ (∃ a b, e.message = a ++ keyOf (TranscodeInput.str "input/test.avi") ++ b)
        ∧ (∀ dtl, statusDetailOf readErrorDetail = some dtl →
            ∃ a b, e.message = a ++ dtl ++ b)
        ∧ e.code = none) :=
  ⟨by decide, by decide, by decide,
   transcode_error_rejects sampleConfig sampleHead (TranscodeInput.str "input/test.avi")
     [outMissing] [readProgressing] readErrorDetail [] (by decide) (by decide) (by decide)⟩

/-- Claim C7: when the first terminal status observed is `Canceled`,
`transcode` rejects with an error identifying the input key that carries the
machine-checkable code `CANCELLED`, while every `Error`-status failure
carries no such code, so callers can branch on cancellation versus genuine
failure. -/
theorem transcode_canceled_code (cfg : Config) (head : String → String → HeadResult)
    (input : TranscodeInput) (outputs : List Output) (pre : List JobRead) (r : JobRead)
    (rest : List JobRead)
    (hfil : maybeRemoveExistingOutputs cfg head outputs ≠ [])
    (hpre : ∀ x ∈ pre, isTerminal x = false)
    (hr : r.Status = "Canceled") :
    ∃ e, (transcode cfg head input outputs (pre ++ r :: rest)).result
          = TranscodeResult.failed e
      ∧ e.code = some "CANCELLED"
      ∧ (∃ a b, e.message = a ++ keyOf input ++ b)
      ∧ (∀ key2 r2, r2.Status = "Error" →
          ∃ e2, checkJobStatus key2 r2 = CheckResult.failed e2
            ∧ e2.code ≠ some "CANCELLED") := by
  refine ⟨{ message := cancelledMessage (keyOf input), code := some "CANCELLED" },
    ?_, rfl, ?_, ?_⟩
  · rw [transcode_of_filtered_ne cfg head input outputs _ hfil]
    simp only
    rw [wait_outcome_first_terminal _ _ pre r rest hpre]
    have hkey : (normalizeInput input).key = keyOf input := by cases input <;> rfl
    simp [waitForTranscoderJob, checkJobStatus_of_canceled _ r hr, outcomeResult, hkey]
  · exact ⟨"Transcode cancelled for \"", "\".", by simp [cancelledMessage, string_append_assoc]⟩
  · intro key2 r2 h2
    exact ⟨_, checkJobStatus_of_error key2 r2 h2, by simp⟩

/-- Witness for C7: a Canceled read after one Progressing read rejects with
code `CANCELLED` and a message containing the key, distinct from the
code-less Error-status failure. -/
theorem transcode_canceled_code_witness :
    maybeRemoveExistingOutputs sampleConfig sampleHead [outMissing] ≠ []
    ∧ (∀ x ∈ [readProgressing], isTerminal x = false)
    ∧ readCancelled.Status = "Canceled"
    ∧ (∃ e, (transcode sampleConfig sampleHead (TranscodeInput.str "input/test.avi")
            [outMissing] ([readProgressing] ++ readCancelled :: [])).result
          = TranscodeResult.failed e
        ∧ e.code = some "CANCELLED"
        ∧ (∃ a b, e.message = a ++ keyOf (TranscodeInput.str "input/test.avi") ++ b)
        ∧ (∀ key2 r2, r2.Status = "Error" →
            ∃ e2, checkJobStatus key2 r2 = CheckResult.failed e2
              ∧ e2.code ≠ some "CANCELLED")) :=
  ⟨by decide, by decide, by decide,
   transcode_canceled_code sampleConfig sampleHead (TranscodeInput.str "input/test.avi")
     [outMissing] [readProgressing] readCancelled [] (by decide) (by decide) (by decide)⟩

/-- Claim C8: with a configured `onProgress` callback, the callback is
invoked exactly once per non-terminal status observation — the emitted event
list is the statuses of the reads strictly before the first terminal read,
in poll order (and nothing after a terminal read). -/
theorem transcode_progress_events (cfg : Config) (head : String → String → HeadResult)
    (input : TranscodeInput) (outputs : List Output) (reads : List JobRead)
    (hon : cfg.onProgress = true)
    (hfil : maybeRemoveExistingOutputs cfg head outputs ≠ []) :
    (transcode cfg head input outputs reads).progressEvents
      = (reads.takeWhile (fun r => ! isTerminal r)).map (fun r => r.Status) := by
  rw [transcode_of_filtered_ne cfg head input outputs _ hfil]
  simp only
  rw [wait_events]
  simp [hon]

/-- Witness for C8: for the observed sequence
Progressing, Progressing, Complete(123) — the job's
Submitted→Progressing→Progressing→Complete transitions as seen by the three
polls — `onProgress` fires exactly twice with status `Progressing` and the
call resolves to `123`. -/
theorem transcode_progress_events_witness :
    sampleConfig.onProgress = true
    ∧ maybeRemoveExistingOutputs sampleConfig sampleHead [outMissing] ≠ []
    ∧ (transcode sampleConfig sampleHead (TranscodeInput.str "input/test.avi") [outMissing]
          [readProgressing, readProgressing, readComplete123]).progressEvents
      = ([readProgressing, readProgressing, readComplete123].takeWhile
          (fun r => ! isTerminal r)).map (fun r => r.Status)
    ∧ (transcode sampleConfig sampleHead (TranscodeInput.str "input/test.avi") [outMissing]
          [readProgressing, readProgressing, readComplete123]).progressEvents
      = ["Progressing", "Progressing"]
    ∧ (transcode sampleConfig sampleHead (TranscodeInput.str "input/test.avi") [outMissing]
          [readProgressing, readProgressing, readComplete123]).result
      = TranscodeResult.completed (some 123) :=
  ⟨rfl, by decide,
   transcode_progress_events sampleConfig sampleHead (TranscodeInput.str "input/test.avi")
     [outMissing] [readProgressing, readProgressing, readComplete123] rfl (by decide),
   by decide, by decide⟩

/-- Claim C10: when the first terminal read has status `Complete` but its
`Output` is absent or lacks `DurationMillis`, `transcode` resolves with the
absent value (`none`) — neither a rejection nor the `false` short-circuit —
since the success result is exactly the possibly-missing `DurationMillis`
field with no validation. -/
theorem transcode_complete_missing_duration (cfg : Config)
    (head : String → String → HeadResult) (input : TranscodeInput) (outputs : List Output)
    (pre : List JobRead) (r : JobRead) (rest : List JobRead)
    (hfil : maybeRemoveExistingOutputs cfg head outputs ≠ [])
    (hpre : ∀ x ∈ pre, isTerminal x = false)
    (hr : r.Status = "Complete")
    (hd : durationOf r = none) :
    (transcode cfg head input outputs (pre ++ r :: rest)).result
        = TranscodeResult.completed none
    ∧ (∀ e, (transcode cfg head input outputs (pre ++ r :: rest)).result
        ≠ TranscodeResult.failed e)
    ∧ (transcode cfg head input outputs (pre ++ r :: rest)).result
        ≠ TranscodeResult.returnedFalse := by
  have hres : (transcode cfg head input outputs (pre ++ r :: rest)).result
      = TranscodeResult.completed none := by
    rw [transcode_of_filtered_ne cfg head input outputs _ hfil]
    simp only
    rw [wait_outcome_first_terminal _ _ pre r rest hpre]
    simp [waitForTranscoderJob, checkJobStatus_of_complete _ r hr, hd, outcomeResult]
  refine ⟨hres, fun e => by rw [hres]; simp, by rw [hres]; simp⟩

/-- Witness for C10: a Complete read with no `Output` field resolves the call
with the absent duration. -/
theorem transcode_complete_missing_duration_witness :
    maybeRemoveExistingOutputs sampleConfig sampleHead [outMissing] ≠ []
    ∧ (∀ x ∈ [readProgressing], isTerminal x = false)
    ∧ readCompleteNoDuration.Status = "Complete"
    ∧ durationOf readCompleteNoDuration = none
    ∧ ((transcode sampleConfig sampleHead (TranscodeInput.str "input/test.avi") [outMissing]
          ([readProgressing] ++ readCompleteNoDuration :: [])).result
        = TranscodeResult.completed none
      ∧ (∀ e, (transcode sampleConfig sampleHead (TranscodeInput.str "input/test.avi")
            [outMissing] ([readProgressing] ++ readCompleteNoDuration :: [])).result
          ≠ TranscodeResult.failed e)
      ∧ (transcode sampleConfig sampleHead (TranscodeInput.str "input/test.avi") [outMissing]
            ([readProgressing] ++ readCompleteNoDuration :: [])).result
          ≠ TranscodeResult.returnedFalse) :=
  ⟨by decide, by decide, by decide, by decide,
   transcode_complete_missing_duration sampleConfig sampleHead
     (TranscodeInput.str "input/test.avi") [outMissing] [readProgressing]
     readCompleteNoDuration [] (by decide) (by decide) (by decide) (by decide)⟩

end AwsTranscode
